import Mathlib

/-!
Verification of the pnplite group-buying bot core logic.

The definitions below are shallow embeddings of the Python source:
`app/services/whatsapp_service.py` (cart, cluster, order, split-payment and
referral-commission logic) and `app/routers/paystack.py` (payment webhook
reconciler).  Python dictionaries become structures, `None`-able fields become
`Option`, money amounts are integers (kobo) or rationals where the source
multiplies by a percentage, and the asynchronous document-store calls become
explicit state passing over pure record values.
-/

namespace PnpLite

/-! ### Split-payment algorithm

Source: `WhatsAppService._split_amount_evenly` (whatsapp_service.py:193-207).
Python `//` and `%` on a positive divisor agree with Lean's `Int` `/` and `%`
(Euclidean division with a positive divisor is floor division), and the
divisor `count = len(members)` is positive in the non-trivial branch.
-/

def splitAmountEvenly (totalKobo : Int) (members : List String) :
    List (String × Int) :=
  if members = [] ∨ totalKobo ≤ 0 then []
  else
    let count : Int := members.length
    let base : Int := totalKobo / count
    let remainder : Int := totalKobo % count
    members.enum.map fun p => (p.2, base + if (p.1 : Int) < remainder then 1 else 0)

/-- Sum of `base` plus one extra unit for each index below `r`, over `range n`. -/
lemma sum_range_base_extra (base : Int) :
    ∀ (n : Nat) (r : Int), 0 ≤ r → r ≤ (n : Int) →
      ((List.range n).map (fun i : Nat => base + if (i : Int) < r then (1 : Int) else 0)).sum
        = n * base + r := by
  intro n
  induction n with
  | zero =>
    intro r h0 h1
    have : r = 0 := by exact_mod_cast le_antisymm h1 h0
    subst this
    simp
  | succ n ih =>
    intro r h0 h1
    rw [List.range_succ, List.map_append, List.sum_append]
    by_cases hr : r ≤ (n : Int)
    · rw [ih r h0 hr]
      have hnr : ¬ ((n : Int) < r) := not_lt.mpr hr
      simp only [List.map_cons, List.map_nil, List.sum_cons, List.sum_nil, if_neg hnr]
      push_cast
      ring
    · have hreq : r = (n : Int) + 1 := by
        have h2 : (n : Int) < r := lt_of_not_le hr
        have h3 : r ≤ (n : Int) + 1 := by exact_mod_cast h1
        omega
      have hcongr : (List.range n).map (fun i : Nat => base + if (i : Int) < r then (1 : Int) else 0)
          = (List.range n).map (fun i : Nat => base + if (i : Int) < (n : Int) then (1 : Int) else 0) := by
        apply List.map_congr_left
        intro i hi
        have hin : i < n := List.mem_range.mp hi
        have hilt : (i : Int) < (n : Int) := by exact_mod_cast hin
        have hiltr : (i : Int) < r := by omega
        rw [if_pos hiltr, if_pos hilt]
      rw [hcongr, ih (n : Int) (by positivity) le_rfl]
      have hnr : (n : Int) < r := lt_of_not_le hr
      simp only [List.map_cons, List.map_nil, List.sum_cons, List.sum_nil, if_pos hnr]
      rw [hreq]
      push_cast
      ring

/-- C1 (amended): for every `totalKobo ≥ 1` and nonempty member list, the
split-payment algorithm returns exactly `n = members.length` shares, paired
with the members in list order, summing exactly to `totalKobo`; the first
`totalKobo % n` members receive `base + 1` (`base = totalKobo / n`) and the
rest receive `base`, so no two shares differ by more than 1. -/
theorem splitAmountEvenly_spec (totalKobo : Int) (members : List String)
    (hne : members ≠ []) (hpos : 0 < totalKobo) :
    (splitAmountEvenly totalKobo members).length = members.length ∧
    (splitAmountEvenly totalKobo members).map Prod.fst = members ∧
    ((splitAmountEvenly totalKobo members).map Prod.snd).sum = totalKobo ∧
    (∀ i (hi : i < (splitAmountEvenly totalKobo members).length),
      ((splitAmountEvenly totalKobo members).get ⟨i, hi⟩).2 =
        totalKobo / (members.length : Int) +
          if (i : Int) < totalKobo % (members.length : Int) then 1 else 0) ∧
    (∀ s ∈ splitAmountEvenly totalKobo members,
      ∀ t ∈ splitAmountEvenly totalKobo members, s.2 ≤ t.2 + 1) := by
  have hguard : ¬ (members = [] ∨ totalKobo ≤ 0) := by
    push_neg
    exact ⟨hne, hpos⟩
  have hcount : (0 : Int) < (members.length : Int) := by
    have : 0 < members.length := List.length_pos.mpr hne
    exact_mod_cast this
  set n : Int := (members.length : Int) with hn
  set base : Int := totalKobo / n with hbase
  set r : Int := totalKobo % n with hrdef
  have hr0 : 0 ≤ r := Int.emod_nonneg totalKobo (ne_of_gt hcount)
  have hrn : r < n := Int.emod_lt_of_pos totalKobo hcount
  have hunfold : splitAmountEvenly totalKobo members =
      members.enum.map fun p => (p.2, base + if (p.1 : Int) < r then 1 else 0) := by
    rw [splitAmountEvenly, if_neg hguard]
  refine ⟨?_, ?_, ?_, ?_, ?_⟩
  · rw [hunfold]
    simp [List.enum_length]
  · rw [hunfold, List.map_map]
    have : (Prod.fst ∘ fun p : Nat × String =>
        (p.2, base + if (p.1 : Int) < r then (1 : Int) else 0)) = Prod.snd := by
      funext p
      rfl
    rw [this, List.enum_map_snd]
  · rw [hunfold, List.map_map]
    have hcomp : (Prod.snd ∘ fun p : Nat × String =>
        (p.2, base + if (p.1 : Int) < r then (1 : Int) else 0)) =
        (fun i : Nat => base + if (i : Int) < r then (1 : Int) else 0) ∘ Prod.fst := by
      funext p
      rfl
    rw [hcomp, ← List.map_map, List.enum_map_fst]
    rw [sum_range_base_extra base members.length r hr0 (le_of_lt hrn)]
    rw [hbase, hrdef, ← hn]
    have := Int.ediv_add_emod totalKobo n
    omega
  · intro i hi
    rw [List.get_of_eq hunfold ⟨i, hi⟩]
    simp only [List.get_eq_getElem, Fin.coe_cast, List.getElem_map, List.getElem_enum]
  · intro s hs t ht
    rw [hunfold] at hs ht
    obtain ⟨p, _, hp⟩ := List.mem_map.mp hs
    obtain ⟨q, _, hq⟩ := List.mem_map.mp ht
    have hsv : s.2 = base + if (p.1 : Int) < r then 1 else 0 := by
      rw [← hp]
    have htv : t.2 = base + if (q.1 : Int) < r then 1 else 0 := by
      rw [← hq]
    rw [hsv, htv]
    split <;> split <;> omega

/-- C1 witness: the amended theorem at the spec's own scenario,
10000 kobo across three members. -/
theorem splitAmountEvenly_spec_witness :
    (splitAmountEvenly 10000 ["a", "b", "c"]).length = 3 ∧
    ((splitAmountEvenly 10000 ["a", "b", "c"]).map Prod.snd).sum = 10000 := by
  have h := splitAmountEvenly_spec 10000 ["a", "b", "c"] (by decide) (by decide)
  exact ⟨h.1, h.2.2.1⟩

/-- C1 counterexample: at `total = 0` (allowed by the claim's `total ≥ 0`)
with one member, the code returns no shares at all rather than one share. -/
theorem splitAmountEvenly_total_zero_counterexample :
    splitAmountEvenly 0 ["alice"] = [] ∧
    (splitAmountEvenly 0 ["alice"]).length ≠ 1 := by
  constructor
  · rfl
  · decide

/-! ### Cart line items and the cart engine

Source: `add_item_to_cart` (whatsapp_service.py:788-808) and
`remove_item_from_cart` (whatsapp_service.py:810-836).  A cart line is the
dict `{sku, name, qty, price}`; every field is `.get`-accessed in the source,
so every field is an `Option`.  Prices are held abstractly as integers (the
source stores them as raw strings or numbers and only parses them at
checkout).
-/

structure CartItem where
  sku : Option String
  name : Option String
  qty : Option Int
  price : Option Int
  deriving Repr, DecidableEq

structure Product where
  sku : Option String
  name : Option String
  price : Option Int
  deriving Repr, DecidableEq

/-- Python's `a in b` substring test on lists of characters: `needle` occurs
contiguously in `haystack`. -/
def charsHavePfx : List Char → List Char → Bool
  | [], _ => true
  | _ :: _, [] => false
  | a :: as, b :: bs => a = b && charsHavePfx as bs

def listContainsSub (needle : List Char) : List Char → Bool
  | [] => charsHavePfx needle []
  | c :: rest => charsHavePfx needle (c :: rest) || listContainsSub needle rest

/-- Python's `needle in haystack` for strings. -/
def strContainsSub (needle haystack : String) : Bool :=
  listContainsSub needle.toList haystack.toList

/-- Python's `str.lower()` (ASCII, as `Char.toLower`). -/
def strToLower (s : String) : String := ⟨s.data.map Char.toLower⟩

/-- Python's `str.strip()`: drop whitespace from both ends. -/
def strStrip (s : String) : String :=
  ⟨((s.data.dropWhile Char.isWhitespace).reverse.dropWhile Char.isWhitespace).reverse⟩

/-- The merge-by-SKU loop of `add_item_to_cart`: the first line whose `sku`
equals the product's `sku` gets `qty` added (`it.get("qty", 1)` defaults a
missing qty to 1); if no line matches, a new line is appended. -/
def addItemToCartItems (items : List CartItem) (product : Product) (qty : Int) :
    List CartItem :=
  match items with
  | [] => [⟨product.sku, product.name, some qty, product.price⟩]
  | it :: rest =>
    if it.sku = product.sku then
      { it with qty := some (it.qty.getD 1 + qty) } :: rest
    else
      it :: addItemToCartItems rest product qty

/-- The match test of `remove_item_from_cart`: the lowercased, stripped query
is a substring of the line's lowercased name **or** the name is a substring of
the query (`query_lower in name_lower or name_lower in query_lower`). -/
def removeMatches (queryLower : String) (it : CartItem) : Bool :=
  let nameL := strToLower (it.name.getD "")
  strContainsSub queryLower nameL || strContainsSub nameL queryLower

/-- The removal loop of `remove_item_from_cart`: drop the first matching line,
keep everything else in order, report whether a removal occurred. -/
def removeLoop (queryLower : String) : List CartItem → List CartItem × Bool
  | [] => ([], false)
  | it :: rest =>
    if removeMatches queryLower it then (rest, true)
    else
      let r := removeLoop queryLower rest
      (it :: r.1, r.2)

/-- `remove_item_from_cart` on the resolved item list (`if not items: return`
leaves an empty cart untouched and reports no removal). -/
def removeItemFromCartItems (items : List CartItem) (itemQuery : String) :
    List CartItem × Bool :=
  if items = [] then (items, false)
  else removeLoop (strStrip (strToLower itemQuery)) items

lemma addItemToCartItems_of_absent (product : Product) (qty : Int) :
    ∀ (items : List CartItem), (∀ it ∈ items, it.sku ≠ product.sku) →
      addItemToCartItems items product qty
        = items ++ [⟨product.sku, product.name, some qty, product.price⟩] := by
  intro items
  induction items with
  | nil => intro _; rfl
  | cons it rest ih =>
    intro h
    have hne : it.sku ≠ product.sku := h it (List.mem_cons_self it rest)
    rw [addItemToCartItems, if_neg hne, ih fun x hx => h x (List.mem_cons_of_mem it hx)]
    rfl

lemma addItemToCartItems_append_match (product : Product) (qty : Int)
    (line : CartItem) (hline : line.sku = product.sku) :
    ∀ (items : List CartItem), (∀ it ∈ items, it.sku ≠ product.sku) →
      addItemToCartItems (items ++ [line]) product qty
        = items ++ [{ line with qty := some (line.qty.getD 1 + qty) }] := by
  intro items
  induction items with
  | nil =>
    intro _
    simp only [List.nil_append, addItemToCartItems, if_pos hline]
  | cons it rest ih =>
    intro h
    have hne : it.sku ≠ product.sku := h it (List.mem_cons_self it rest)
    have hrec := ih fun x hx => h x (List.mem_cons_of_mem it hx)
    simp [addItemToCartItems, hne, hrec]

/-- C7 (amended): if the product's SKU is not already in the cart, the first
`addItem` appends exactly one new line with the given quantity (all other
lines unchanged), and a second `addItem` with the same SKU merges into that
line, leaving exactly one line for the SKU with quantity `q1 + q2`. -/
theorem addItem_merge_spec (items : List CartItem) (product : Product)
    (q1 q2 : Int) (habs : ∀ it ∈ items, it.sku ≠ product.sku) :
    addItemToCartItems items product q1
      = items ++ [⟨product.sku, product.name, some q1, product.price⟩] ∧
    addItemToCartItems (addItemToCartItems items product q1) product q2
      = items ++ [⟨product.sku, product.name, some (q1 + q2), product.price⟩] ∧
    (addItemToCartItems (addItemToCartItems items product q1) product q2).countP
      (fun it => it.sku == product.sku) = 1 := by
  have h1 := addItemToCartItems_of_absent product q1 items habs
  have h2 : addItemToCartItems (addItemToCartItems items product q1) product q2
      = items ++ [⟨product.sku, product.name, some (q1 + q2), product.price⟩] := by
    rw [h1, addItemToCartItems_append_match product q2
      ⟨product.sku, product.name, some q1, product.price⟩ rfl items habs]
    rfl
  refine ⟨h1, h2, ?_⟩
  rw [h2, List.countP_append]
  have hzero : items.countP (fun it => it.sku == product.sku) = 0 := by
    rw [List.countP_eq_zero]
    intro it hit
    simp only [beq_iff_eq]
    exact habs it hit
  rw [hzero]
  simp

/-- C7 witness: fresh SKU added twice into a cart holding an unrelated line. -/
theorem addItem_merge_spec_witness :
    addItemToCartItems
        (addItemToCartItems [⟨some "B", some "Beans", some 4, none⟩]
          ⟨some "A", some "Apple", some 500⟩ 2)
        ⟨some "A", some "Apple", some 500⟩ 3
      = [⟨some "B", some "Beans", some 4, none⟩,
         ⟨some "A", some "Apple", some 5, some 500⟩] := by
  have h := addItem_merge_spec [⟨some "B", some "Beans", some 4, none⟩]
    ⟨some "A", some "Apple", some 500⟩ 2 3 (by decide)
  exact h.2.1

/-- C7 counterexample: if the cart already holds the SKU with quantity 1,
two more `addItem`s of quantity 1 leave quantity 3, not `q1 + q2 = 2`, so the
claim fails for carts already containing the SKU. -/
theorem addItem_preexisting_counterexample :
    addItemToCartItems
        (addItemToCartItems [⟨some "A", some "Apple", some 1, none⟩]
          ⟨some "A", some "Apple", none⟩ 1)
        ⟨some "A", some "Apple", none⟩ 1
      = [⟨some "A", some "Apple", some 3, none⟩] ∧ (3 : Int) ≠ 1 + 1 := by
  constructor
  · rfl
  · decide

lemma removeLoop_of_no_match (q : String) :
    ∀ (items : List CartItem), (∀ it ∈ items, removeMatches q it = false) →
      removeLoop q items = (items, false) := by
  intro items
  induction items with
  | nil => intro _; rfl
  | cons it rest ih =>
    intro h
    have hm : removeMatches q it = false := h it (List.mem_cons_self it rest)
    rw [removeLoop, if_neg (by simp [hm]), ih fun x hx => h x (List.mem_cons_of_mem it hx)]

lemma removeLoop_any (q : String) :
    ∀ (items : List CartItem), (removeLoop q items).2 = items.any (removeMatches q) := by
  intro items
  induction items with
  | nil => rfl
  | cons it rest ih =>
    rw [removeLoop]
    by_cases hm : removeMatches q it = true
    · rw [if_pos hm]
      simp [hm]
    · have hm' : removeMatches q it = false := by
        revert hm
        cases removeMatches q it <;> simp
      rw [if_neg hm]
      simp [hm', ih]

lemma removeLoop_first_match (q : String) (x : CartItem) (l2 : List CartItem)
    (hx : removeMatches q x = true) :
    ∀ (l1 : List CartItem), (∀ y ∈ l1, removeMatches q y = false) →
      removeLoop q (l1 ++ x :: l2) = (l1 ++ l2, true) := by
  intro l1
  induction l1 with
  | nil =>
    intro _
    simp only [List.nil_append, removeLoop, if_pos hx]
  | cons y rest ih =>
    intro h
    have hy : removeMatches q y = false := h y (List.mem_cons_self y rest)
    have hrec := ih fun z hz => h z (List.mem_cons_of_mem y hz)
    simp [removeLoop, hy, hrec]

/-- C8 (amended): `removeItem` lowercases and strips the query, matches each
line by the **bidirectional** case-insensitive substring test (query in name
or name in query), removes only the first matching line, preserves all other
lines in order, and returns whether a removal occurred. -/
theorem removeItem_spec (items : List CartItem) (itemQuery : String) :
    (removeItemFromCartItems items itemQuery).2
        = items.any (removeMatches (strStrip (strToLower itemQuery))) ∧
    ((∀ it ∈ items, removeMatches (strStrip (strToLower itemQuery)) it = false) →
      (removeItemFromCartItems items itemQuery).1 = items) ∧
    (∀ (l1 : List CartItem) (x : CartItem) (l2 : List CartItem),
      items = l1 ++ x :: l2 →
      (∀ y ∈ l1, removeMatches (strStrip (strToLower itemQuery)) y = false) →
      removeMatches (strStrip (strToLower itemQuery)) x = true →
      (removeItemFromCartItems items itemQuery).1 = l1 ++ l2) := by
  refine ⟨?_, ?_, ?_⟩
  · rw [removeItemFromCartItems]
    by_cases he : items = []
    · subst he
      rfl
    · rw [if_neg he, removeLoop_any]
  · intro h
    rw [removeItemFromCartItems]
    by_cases he : items = []
    · subst he
      rfl
    · rw [if_neg he, removeLoop_of_no_match _ items h]
  · intro l1 x l2 hsplit h1 hx
    have hne : items ≠ [] := by
      rw [hsplit]
      exact List.append_ne_nil_of_right_ne_nil l1 (List.cons_ne_nil x l2)
    rw [removeItemFromCartItems, if_neg hne, hsplit,
      removeLoop_first_match _ x l2 hx l1 h1]

/-- C8 witness: the query "rice" removes only the first of two rice lines. -/
theorem removeItem_spec_witness :
    (removeItemFromCartItems
        [⟨some "R1", some "Rice 5kg", some 1, none⟩,
         ⟨some "R2", some "Rice 10kg", some 1, none⟩] "Rice").1
      = [⟨some "R2", some "Rice 10kg", some 1, none⟩] := by
  have h := (removeItem_spec
    [⟨some "R1", some "Rice 5kg", some 1, none⟩,
     ⟨some "R2", some "Rice 10kg", some 1, none⟩] "Rice").2.2
    [] ⟨some "R1", some "Rice 5kg", some 1, none⟩
    [⟨some "R2", some "Rice 10kg", some 1, none⟩] rfl (by simp) (by decide)
  simpa using h

/-- C8 counterexample: the query "Premium Rice 5kg" is **not** a substring of
the line name "Rice", yet the line is removed, because the source also
matches when the name is a substring of the query. -/
theorem removeItem_reverse_match_counterexample :
    removeItemFromCartItems [⟨some "R1", some "Rice", some 1, none⟩]
        "Premium Rice 5kg"
      = ([], true) ∧
    strContainsSub "premium rice 5kg" "rice" = false := by
  constructor
  · rfl
  · rfl

/-! ### Payment reconciler: cluster_order webhook events

Source: the `cluster_order` branch of `paystack_webhook`
(routers/paystack.py:147-204) and `initiate_cluster_payment_links`
(whatsapp_service.py:665-767).  The order document fields touched by the
reconciler become `ClusterOrderState`; a `charge.success` webhook delivery
with `metadata.type == "cluster_order"` becomes `ClusterEvent` (its
`totalKobo` is `metadata.total_kobo` when `int(...)` parses, else `none`).
`order["total"]` is naira; the fallback target is `int(total * 100)`.
External notification sends are side-effect-free for this state and are not
modelled; the Paystack link initialization is abstracted as the
`payLink : String → Option String` oracle (`None` models a failed or
exception-raising initialization).
-/

structure ClusterPayment where
  phone : Option String
  amountKobo : Option Int
  status : String
  reference : Option String
  paidAt : Option String
  payerName : Option String
  payLink : Option String
  deriving Repr, DecidableEq

structure ClusterEvent where
  phone : Option String
  amountPaid : Option Int
  reference : Option String
  paidAt : String
  payerName : Option String
  totalKobo : Option Int
  deriving Repr, DecidableEq

structure ClusterOrderState where
  status : String
  total : Option Int
  clusterName : Option String
  clusterOwnerPhone : Option String
  clusterMembers : List String
  clusterPayments : List ClusterPayment
  clusterPaidAmountKobo : Int
  deriving Repr, DecidableEq

/-- `sum(p.get("amount_kobo", 0) or 0 for p in payments if p.get("status") == "PAID")`. -/
def paidSum (ps : List ClusterPayment) : Int :=
  ((ps.filter fun p => p.status == "PAID").map fun p => p.amountKobo.getD 0).sum

/-- `len([p for p in payments if p.get("status") == "PAID"])`. -/
def paidCount (ps : List ClusterPayment) : Nat :=
  (ps.filter fun p => p.status == "PAID").length

/-- The in-place `p.update({...})` on a matching payment entry. -/
def updatedEntry (e : ClusterEvent) (p : ClusterPayment) : ClusterPayment :=
  { p with status := "PAID", amountKobo := e.amountPaid, reference := e.reference,
           paidAt := some e.paidAt, payerName := e.payerName }

/-- The appended entry when no existing entry matches the paying phone. -/
def newPaymentEntry (e : ClusterEvent) : ClusterPayment :=
  { phone := e.phone, status := "PAID", amountKobo := e.amountPaid,
    reference := e.reference, paidAt := some e.paidAt, payerName := e.payerName,
    payLink := none }

/-- The locate-or-insert loop over `cluster_payments`: update the first entry
whose phone matches, else append a new entry. -/
def applyClusterPayment (e : ClusterEvent) : List ClusterPayment → List ClusterPayment
  | [] => [newPaymentEntry e]
  | p :: rest =>
    if p.phone = e.phone then updatedEntry e p :: rest
    else p :: applyClusterPayment e rest

/-- `int(metadata.total_kobo)` when it parses, else `int((order.total or 0) * 100)`. -/
def clusterTarget (e : ClusterEvent) (o : ClusterOrderState) : Int :=
  match e.totalKobo with
  | some t => t
  | none => o.total.getD 0 * 100

/-- One `cluster_order` webhook delivery applied to the order state
(paystack.py:160-204): upsert the payment by phone, recompute the paid sum
from the PAID entries, and mark the order PAID when the sum reaches the
target or every expected member has a PAID entry. -/
def processClusterOrder (e : ClusterEvent) (o : ClusterOrderState) : ClusterOrderState :=
  { o with
    clusterPayments := applyClusterPayment e o.clusterPayments,
    clusterPaidAmountKobo := paidSum (applyClusterPayment e o.clusterPayments),
    status :=
      if paidSum (applyClusterPayment e o.clusterPayments) ≥ clusterTarget e o ∨
          (o.clusterMembers.length ≠ 0 ∧
            paidCount (applyClusterPayment e o.clusterPayments) ≥ o.clusterMembers.length)
      then "PAID" else o.status }

lemma clusterTarget_eq (e : ClusterEvent) (o : ClusterOrderState) :
    clusterTarget e o = e.totalKobo.getD (o.total.getD 0 * 100) := by
  cases h : e.totalKobo <;> simp [clusterTarget, h]

lemma applyClusterPayment_idem (e : ClusterEvent) :
    ∀ (l : List ClusterPayment),
      applyClusterPayment e (applyClusterPayment e l) = applyClusterPayment e l := by
  intro l
  induction l with
  | nil => simp [applyClusterPayment, newPaymentEntry, updatedEntry]
  | cons p rest ih =>
    by_cases hp : p.phone = e.phone
    · simp [applyClusterPayment, hp, updatedEntry]
    · simp [applyClusterPayment, hp, ih]

lemma countP_applyClusterPayment (e : ClusterEvent) :
    ∀ (l : List ClusterPayment), (l.map (fun p => p.phone)).Nodup →
      (applyClusterPayment e l).countP
          (fun p => p.phone == e.phone && p.status == "PAID") = 1 := by
  intro l
  induction l with
  | nil => intro _; simp [applyClusterPayment, newPaymentEntry]
  | cons p rest ih =>
    intro hnd
    rw [List.map_cons, List.nodup_cons] at hnd
    obtain ⟨hnotin, hrest⟩ := hnd
    by_cases hp : p.phone = e.phone
    · rw [applyClusterPayment, if_pos hp]
      have hhead : ((updatedEntry e p).phone == e.phone &&
          (updatedEntry e p).status == "PAID") = true := by
        simp [updatedEntry, hp]
      have hzero : rest.countP (fun p => p.phone == e.phone && p.status == "PAID") = 0 := by
        rw [List.countP_eq_zero]
        intro q hq
        have hqphone : q.phone ≠ e.phone := by
          intro hEq
          apply hnotin
          rw [hp, ← hEq]
          exact List.mem_map_of_mem (fun p => p.phone) hq
        simp [hqphone]
      simp [List.countP_cons, hhead, hzero]
    · rw [applyClusterPayment, if_neg hp]
      have hhead : (p.phone == e.phone && p.status == "PAID") = false := by
        simp [hp]
      simp [List.countP_cons, hhead, ih hrest]

/-- C2: replaying an identical `cluster_order` event is idempotent: given an
order whose payment entries have pairwise-distinct phones (as the link
initialization produces), the second delivery leaves the whole order state
unchanged — in particular exactly one PAID entry for the paying phone
(overwritten, never duplicated) and an unchanged `cluster_paid_amount_kobo`. -/
theorem clusterOrder_replay_idempotent (e : ClusterEvent) (o : ClusterOrderState)
    (hnodup : (o.clusterPayments.map (fun p => p.phone)).Nodup) :
    processClusterOrder e (processClusterOrder e o) = processClusterOrder e o ∧
    (processClusterOrder e (processClusterOrder e o)).clusterPayments.countP
        (fun p => p.phone == e.phone && p.status == "PAID") = 1 ∧
    (processClusterOrder e (processClusterOrder e o)).clusterPaidAmountKobo
        = (processClusterOrder e o).clusterPaidAmountKobo := by
  have hidem : processClusterOrder e (processClusterOrder e o) = processClusterOrder e o := by
    obtain ⟨st, tot, cn, cop, cm, cp, paid⟩ := o
    simp only [processClusterOrder, clusterTarget_eq, applyClusterPayment_idem]
    by_cases hall : e.totalKobo.getD (tot.getD 0 * 100) ≤ paidSum (applyClusterPayment e cp) ∨
        (¬ cm = [] ∧ cm.length ≤ paidCount (applyClusterPayment e cp))
    · simp [hall]
    · simp [hall]
  refine ⟨hidem, ?_, ?_⟩
  · rw [hidem]
    show (applyClusterPayment e o.clusterPayments).countP _ = 1
    exact countP_applyClusterPayment e o.clusterPayments hnodup
  · rw [hidem]

/-- C2 witness: a two-member order, replayed payment from the first member. -/
theorem clusterOrder_replay_idempotent_witness :
    (processClusterOrder
        ⟨some "p1", some 5000, some "ref1", "t1", some "Ada", some 10000⟩
        (processClusterOrder
          ⟨some "p1", some 5000, some "ref1", "t1", some "Ada", some 10000⟩
          ⟨"WAITING_PAYMENT", some 100, some "Fam", some "p1", ["p1", "p2"],
            [⟨some "p1", some 5000, "pending", none, none, none, some "l1"⟩,
             ⟨some "p2", some 5000, "pending", none, none, none, some "l2"⟩], 0⟩)) =
      processClusterOrder
        ⟨some "p1", some 5000, some "ref1", "t1", some "Ada", some 10000⟩
        ⟨"WAITING_PAYMENT", some 100, some "Fam", some "p1", ["p1", "p2"],
          [⟨some "p1", some 5000, "pending", none, none, none, some "l1"⟩,
           ⟨some "p2", some 5000, "pending", none, none, none, some "l2"⟩], 0⟩ :=
  (clusterOrder_replay_idempotent
    ⟨some "p1", some 5000, some "ref1", "t1", some "Ada", some 10000⟩
    ⟨"WAITING_PAYMENT", some 100, some "Fam", some "p1", ["p1", "p2"],
      [⟨some "p1", some 5000, "pending", none, none, none, some "l1"⟩,
       ⟨some "p2", some 5000, "pending", none, none, none, some "l2"⟩], 0⟩
    (by decide)).1

/-- The member-list cleanup of `initiate_cluster_payment_links`: owner first,
falsy entries dropped, de-duplicated preserving order. -/
def dedupeKeepFirst (seen : List String) : List String → List String
  | [] => []
  | m :: rest =>
    if m = "" ∨ m ∈ seen then dedupeKeepFirst seen rest
    else m :: dedupeKeepFirst (m :: seen) rest

def cleanClusterMembers (ownerPhone : String) (members : List String) : List String :=
  let members1 := if ownerPhone ≠ "" ∧ ownerPhone ∉ members then ownerPhone :: members else members
  let members2 := if members1 = [] ∧ ownerPhone ≠ "" then [ownerPhone] else members1
  dedupeKeepFirst [] members2

/-- `initiate_cluster_payment_links` (whatsapp_service.py:665-767) restricted
to its effect on the order document (the `$set` at lines 744-755): one
payment entry per split, `pending` when a Paystack link was obtained and
`error` otherwise, and `cluster_paid_amount_kobo` reset to 0. -/
def initiateClusterPaymentLinks (payLink : String → Option String) (totalVal : Int)
    (ownerPhone : String) (clusterName : String) (members : List String)
    (o : ClusterOrderState) : ClusterOrderState :=
  let cleanMembers := cleanClusterMembers ownerPhone members
  let splits := splitAmountEvenly (totalVal * 100) cleanMembers
  { o with
    clusterPayments := splits.map fun s =>
      { phone := some s.1, amountKobo := some s.2,
        status := if (payLink s.1).isSome then "pending" else "error",
        reference := none, paidAt := none, payerName := none,
        payLink := payLink s.1 },
    clusterMembers := cleanMembers,
    clusterOwnerPhone := if ownerPhone = "" then none else some ownerPhone,
    clusterName := some clusterName,
    clusterPaidAmountKobo := 0 }

lemma paidSum_initiate (payLink : String → Option String) (totalVal : Int)
    (ownerPhone clusterName : String) (members : List String) (o : ClusterOrderState) :
    paidSum (initiateClusterPaymentLinks payLink totalVal ownerPhone clusterName
      members o).clusterPayments = 0 := by
  show paidSum ((splitAmountEvenly (totalVal * 100)
    (cleanClusterMembers ownerPhone members)).map _) = 0
  rw [paidSum]
  have hfil : ((splitAmountEvenly (totalVal * 100)
      (cleanClusterMembers ownerPhone members)).map fun s : String × Int =>
        ({ phone := some s.1, amountKobo := some s.2,
           status := if (payLink s.1).isSome then "pending" else "error",
           reference := none, paidAt := none, payerName := none,
           payLink := payLink s.1 } : ClusterPayment)).filter
        (fun p => p.status == "PAID") = [] := by
    rw [List.filter_eq_nil_iff]
    intro p hp
    rw [List.mem_map] at hp
    obtain ⟨s, _, hs⟩ := hp
    rw [← hs]
    by_cases hl : (payLink s.1).isSome <;> simp [hl]
  rw [hfil]
  rfl

lemma processClusterOrder_paid_eq (e : ClusterEvent) (o : ClusterOrderState) :
    (processClusterOrder e o).clusterPaidAmountKobo
      = paidSum (processClusterOrder e o).clusterPayments := rfl

lemma foldl_process_paid_eq (es : List ClusterEvent) :
    ∀ (s : ClusterOrderState),
      s.clusterPaidAmountKobo = paidSum s.clusterPayments →
      (es.foldl (fun s e => processClusterOrder e s) s).clusterPaidAmountKobo
        = paidSum (es.foldl (fun s e => processClusterOrder e s) s).clusterPayments := by
  induction es with
  | nil => intro s h; exact h
  | cons e rest ih =>
    intro s _
    exact ih (processClusterOrder e s) (processClusterOrder_paid_eq e s)

/-- C3: after a cluster-payment-link initialization followed by any number of
`cluster_order` webhook deliveries, `cluster_paid_amount_kobo` equals the sum
of `amount_kobo` over PAID entries; and a webhook delivery changes the order
status only by setting it to PAID, and only when the recomputed paid amount
reaches the target or (with a positive expected member count) the PAID-entry
count reaches the expected member count. -/
theorem clusterOrder_paid_invariant :
    (∀ (payLink : String → Option String) (totalVal : Int)
        (ownerPhone clusterName : String) (members : List String)
        (o : ClusterOrderState) (es : List ClusterEvent),
      (es.foldl (fun s e => processClusterOrder e s)
          (initiateClusterPaymentLinks payLink totalVal ownerPhone clusterName
            members o)).clusterPaidAmountKobo
        = paidSum (es.foldl (fun s e => processClusterOrder e s)
            (initiateClusterPaymentLinks payLink totalVal ownerPhone clusterName
              members o)).clusterPayments) ∧
    (∀ (e : ClusterEvent) (o : ClusterOrderState),
      (processClusterOrder e o).status ≠ o.status →
      (processClusterOrder e o).status = "PAID" ∧
        (paidSum (processClusterOrder e o).clusterPayments ≥ clusterTarget e o ∨
          (0 < o.clusterMembers.length ∧
            paidCount (processClusterOrder e o).clusterPayments
              ≥ o.clusterMembers.length))) := by
  constructor
  · intro payLink totalVal ownerPhone clusterName members o es
    exact foldl_process_paid_eq es _
      (by rw [paidSum_initiate payLink totalVal ownerPhone clusterName members o]; rfl)
  · intro e o hst
    by_cases hall : paidSum (applyClusterPayment e o.clusterPayments) ≥ clusterTarget e o ∨
        (o.clusterMembers.length ≠ 0 ∧
          paidCount (applyClusterPayment e o.clusterPayments) ≥ o.clusterMembers.length)
    · constructor
      · show (if _ then "PAID" else o.status) = "PAID"
        rw [if_pos hall]
      · rcases hall with h | ⟨h1, h2⟩
        · left
          exact h
        · right
          exact ⟨Nat.pos_of_ne_zero h1, h2⟩
    · exfalso
      apply hst
      show (if _ then "PAID" else o.status) = o.status
      rw [if_neg hall]

/-- C3 witness: a fresh one-member order whose single payment reaches the
metadata target, flipping the status to PAID under the stated condition. -/
theorem clusterOrder_paid_invariant_witness :
    (processClusterOrder ⟨some "p1", some 100, none, "t1", none, some 100⟩
        ⟨"WAITING_PAYMENT", some 1, none, none, ["p1"], [], 0⟩).status = "PAID" := by
  have h := clusterOrder_paid_invariant.2
    ⟨some "p1", some 100, none, "t1", none, some 100⟩
    ⟨"WAITING_PAYMENT", some 1, none, none, ["p1"], [], 0⟩
    (by decide)
  exact h.1

/-! ### Referral Commission Engine

Source: `award_referral_commission` (whatsapp_service.py:959-1019),
`_looks_like_phone` (whatsapp_service.py:187-191), and its call sites in the
webhook (`order` and `cluster_order` branches of paystack.py), which always
set the order's status to PAID in the database before awarding.  The member
store is read-only during awarding, so it is a fixed list; the orders and
commissions collections form `AwardState`.  Python's `float(total) * 0.02`
is modelled exactly as the rational `total * 2 / 100`.
-/

structure MemberRec where
  phone : String
  name : Option String
  state : String
  city : Option String
  paymentStatus : String
  currentClusterId : Option String
  address : Option String
  referredBy : Option String
  tempClusterName : Option String
  deriving Repr, DecidableEq

/-- `get_member`: `find_one({"phone": phone})`; the source's `or {}` with a
later `if not member` check is the `none` case here. -/
def getMemberRec (members : List MemberRec) (phone : String) : Option MemberRec :=
  members.find? fun m => m.phone == phone

/-- `_looks_like_phone`: falsy values fail, otherwise at least 7 digits. -/
def looksLikePhone (value : Option String) : Bool :=
  match value with
  | none => false
  | some v => if v = "" then false else 7 ≤ (v.data.filter Char.isDigit).length

structure OrderDoc where
  memberPhone : String
  slug : String
  status : String
  total : Option Int
  city : Option String
  address : Option String
  items : List CartItem
  clusterId : Option String
  clusterName : Option String
  clusterOwnerPhone : Option String
  clusterMembers : List String
  clusterPayments : List ClusterPayment
  clusterPaidAmountKobo : Int
  rawText : Option String
  deriving Repr, DecidableEq

structure Commission where
  referrerPhone : String
  referredPhone : String
  orderSlug : String
  amount : ℚ
  status : String
  deriving Repr, DecidableEq

structure AwardState where
  orders : List OrderDoc
  commissions : List Commission
  deriving Repr, DecidableEq

/-- `award_referral_commission(order)`: the guard chain and, on eligibility,
the insertion of a single commission record worth 2% of the order total. -/
def awardReferralCommission (members : List MemberRec) (order : OrderDoc)
    (st : AwardState) : AwardState :=
  if order.memberPhone = "" ∨ order.slug = "" ∨ order.total.getD 0 = 0 then st
  else
    match getMemberRec members order.memberPhone with
    | none => st
    | some m =>
      if ¬ looksLikePhone m.referredBy then st
      else
        match getMemberRec members (m.referredBy.getD "") with
        | none => st
        | some referrer =>
          if referrer.paymentStatus ≠ "paid" then st
          else if 1 < st.orders.countP
              (fun o => o.memberPhone == order.memberPhone && o.status == "PAID") then st
          else if st.commissions.any
              (fun c => c.referredPhone == order.memberPhone && c.orderSlug == order.slug)
            then st
          else
            { st with commissions := st.commissions ++
                [{ referrerPhone := m.referredBy.getD "",
                   referredPhone := order.memberPhone,
                   orderSlug := order.slug,
                   amount := (order.total.getD 0 : ℚ) * 2 / 100,
                   status := "pending" }] }

/-- Sequential processing of one order payment, as the webhook does: set the
order's status to `PAID` in the store, re-read the updated document, then run
the referral award against it. -/
def processPaidOrder (members : List MemberRec) (i : Nat) (st : AwardState) : AwardState :=
  if h : i < st.orders.length then
    awardReferralCommission members { st.orders.get ⟨i, h⟩ with status := "PAID" }
      { st with orders := st.orders.set i { st.orders.get ⟨i, h⟩ with status := "PAID" } }
  else st

lemma two_le_countP (P : α → Bool) :
    ∀ (l : List α) (i j : Nat) (hi : i < l.length) (hj : j < l.length), i < j →
      P l[i] = true → P l[j] = true → 2 ≤ l.countP P := by
  intro l
  induction l with
  | nil =>
    intro i j hi
    simp at hi
  | cons a t ih =>
    intro i j hi hj hij hPi hPj
    match j, hj with
    | 0, hj => omega
    | j' + 1, hj =>
      have hj' : j' < t.length := by simpa using hj
      have hPj' : P t[j'] = true := by simpa using hPj
      match i, hi with
      | 0, hi =>
        have hPa : P a = true := by simpa using hPi
        have h1 : 0 < t.countP P :=
          List.countP_pos_iff.mpr ⟨t[j'], List.getElem_mem hj', hPj'⟩
        have hone : (if P a = true then 1 else 0) = 1 := if_pos hPa
        rw [List.countP_cons, hone]
        omega
      | i' + 1, hi =>
        have hi' : i' < t.length := by simpa using hi
        have hPi' : P t[i'] = true := by simpa using hPi
        have h2 := ih i' j' hi' hj' (by omega) hPi' hPj'
        rw [List.countP_cons]
        omega

/-- The two invariants carried across sequential order processing: at most
one commission per referred phone, and every commission is backed by a PAID
order of that phone with that slug. -/
def commInv (st : AwardState) : Prop :=
  (∀ p : String, st.commissions.countP (fun c => c.referredPhone == p) ≤ 1) ∧
  (∀ c ∈ st.commissions, ∃ (j : Nat) (hj : j < st.orders.length),
     st.orders[j].memberPhone = c.referredPhone ∧
     st.orders[j].slug = c.orderSlug ∧
     st.orders[j].status = "PAID")

lemma awardReferralCommission_eq (members : List MemberRec) (order : OrderDoc)
    (st : AwardState) :
    awardReferralCommission members order st = st ∨
    (∃ m, getMemberRec members order.memberPhone = some m ∧
      looksLikePhone m.referredBy = true ∧
      (∃ r, getMemberRec members (m.referredBy.getD "") = some r ∧
        r.paymentStatus = "paid") ∧
      st.orders.countP
        (fun o => o.memberPhone == order.memberPhone && o.status == "PAID") ≤ 1 ∧
      st.commissions.any
        (fun c => c.referredPhone == order.memberPhone && c.orderSlug == order.slug)
          = false ∧
      awardReferralCommission members order st
        = { st with commissions := st.commissions ++
            [{ referrerPhone := m.referredBy.getD "",
               referredPhone := order.memberPhone,
               orderSlug := order.slug,
               amount := (order.total.getD 0 : ℚ) * 2 / 100,
               status := "pending" }] }) := by
  rw [awardReferralCommission]
  split
  · left
    rfl
  · split
    · left
      rfl
    · rename_i m hm
      split
      · left
        rfl
      · rename_i hlooks
        split
        · left
          rfl
        · rename_i r hr
          split
          · left
            rfl
          · rename_i hrpaid
            split
            · left
              rfl
            · rename_i hcount
              split
              · left
                rfl
              · rename_i hexist
                right
                exact ⟨m, hm, not_not.mp hlooks, ⟨r, hr, not_not.mp hrpaid⟩,
                  by omega, Bool.eq_false_iff.mpr hexist, rfl⟩

lemma awardReferralCommission_create (members : List MemberRec) (order : OrderDoc)
    (st : AwardState)
    (hne : (awardReferralCommission members order st).commissions ≠ st.commissions) :
    ∃ m, getMemberRec members order.memberPhone = some m ∧
      looksLikePhone m.referredBy = true ∧
      (∃ r, getMemberRec members (m.referredBy.getD "") = some r ∧
        r.paymentStatus = "paid") ∧
      st.orders.countP
        (fun o => o.memberPhone == order.memberPhone && o.status == "PAID") ≤ 1 ∧
      st.commissions.any
        (fun c => c.referredPhone == order.memberPhone && c.orderSlug == order.slug)
          = false ∧
      awardReferralCommission members order st
        = { st with commissions := st.commissions ++
            [{ referrerPhone := m.referredBy.getD "",
               referredPhone := order.memberPhone,
               orderSlug := order.slug,
               amount := (order.total.getD 0 : ℚ) * 2 / 100,
               status := "pending" }] } := by
  rcases awardReferralCommission_eq members order st with h | hcreate
  · exact absurd (by rw [h]) hne
  · exact hcreate

lemma awardReferralCommission_orders (members : List MemberRec) (order : OrderDoc)
    (st : AwardState) :
    (awardReferralCommission members order st).orders = st.orders := by
  rw [awardReferralCommission]
  split
  · rfl
  · split
    · rfl
    · split
      · rfl
      · split
        · rfl
        · split
          · rfl
          · split
            · rfl
            · split <;> rfl

lemma commInv_award (members : List MemberRec) (order : OrderDoc) (st : AwardState)
    (hInv : commInv st)
    (hord : ∃ (k : Nat) (hk : k < st.orders.length),
      st.orders[k].memberPhone = order.memberPhone ∧
      st.orders[k].slug = order.slug ∧
      st.orders[k].status = "PAID") :
    commInv (awardReferralCommission members order st) := by
  have horders := awardReferralCommission_orders members order st
  by_cases hne : (awardReferralCommission members order st).commissions = st.commissions
  · constructor
    · intro p
      rw [hne]
      exact hInv.1 p
    · intro c hc
      rw [hne] at hc
      rw [horders]
      exact hInv.2 c hc
  · obtain ⟨m, hm, hlooks, hrpaid, hcount, hexist, heq⟩ :=
      awardReferralCommission_create members order st hne
    obtain ⟨k, hk, hkm, hks, hkp⟩ := hord
    constructor
    · intro p
      rw [heq]
      show (st.commissions ++ [_]).countP _ ≤ 1
      rw [List.countP_append]
      by_cases hp : order.memberPhone = p
      · have hzero : st.commissions.countP (fun c => c.referredPhone == p) = 0 := by
          by_contra hpos
          have hpos' : 0 < st.commissions.countP (fun c => c.referredPhone == p) :=
            Nat.pos_of_ne_zero hpos
          obtain ⟨c, hc, hcp⟩ := List.countP_pos_iff.mp hpos'
          have hcp' : c.referredPhone = p := by simpa using hcp
          obtain ⟨j, hj, hjm, hjs, hjp⟩ := hInv.2 c hc
          have hslug_ne : c.orderSlug ≠ order.slug := by
            intro hEq
            have hany : st.commissions.any
                (fun c => c.referredPhone == order.memberPhone &&
                  c.orderSlug == order.slug) = true :=
              List.any_eq_true.mpr ⟨c, hc, by simp [hcp', hp, hEq]⟩
            rw [hexist] at hany
            exact Bool.false_ne_true hany
          have hjk : j ≠ k := by
            intro hEq
            apply hslug_ne
            rw [← hjs, ← hks]
            subst hEq
            rfl
          have hPj : (fun o => o.memberPhone == order.memberPhone &&
              o.status == "PAID") st.orders[j] = true := by
            simp [hjm, hcp', hp, hjp]
          have hPk : (fun o => o.memberPhone == order.memberPhone &&
              o.status == "PAID") st.orders[k] = true := by
            simp [hkm, hkp]
          have h2le : 2 ≤ st.orders.countP
              (fun o => o.memberPhone == order.memberPhone && o.status == "PAID") := by
            rcases Nat.lt_or_ge j k with hlt | hge
            · exact two_le_countP _ st.orders j k hj hk hlt hPj hPk
            · have hlt : k < j := by omega
              exact two_le_countP _ st.orders k j hk hj hlt hPk hPj
          omega
        rw [hzero]
        simp [List.countP_cons, hp]
      · have hbound := hInv.1 p
        have hcne : (order.memberPhone == p) = false := by
          simp [hp]
        simp only [List.countP_cons, List.countP_nil, hcne, Bool.false_and,
          cond_false, Nat.add_zero, Nat.zero_add, if_false]
        simp [hcne]
        omega
    · intro c hc
      rw [heq] at hc
      rw [horders]
      rcases List.mem_append.mp hc with hold | hnew
      · exact hInv.2 c hold
      · have hcval : c = ⟨m.referredBy.getD "", order.memberPhone, order.slug,
            (order.total.getD 0 : ℚ) * 2 / 100, "pending"⟩ := by
          simpa using hnew
        exact ⟨k, hk, by rw [hcval]; exact hkm, by rw [hcval]; exact hks, hkp⟩

lemma commInv_set_paid (st : AwardState) (i : Nat) (h : i < st.orders.length)
    (hInv : commInv st) :
    commInv { st with
      orders := st.orders.set i { st.orders[i] with status := "PAID" } } := by
  constructor
  · exact hInv.1
  · intro c hc
    obtain ⟨j, hj, h1, h2, h3⟩ := hInv.2 c hc
    have hjlen : j < (st.orders.set i { st.orders[i] with status := "PAID" }).length := by
      simpa using hj
    refine ⟨j, hjlen, ?_, ?_, ?_⟩ <;> rw [List.getElem_set] <;> by_cases hij : i = j
    · subst hij
      simp_all
    · simp [hij, h1]
    · subst hij
      simp_all
    · simp [hij, h2]
    · subst hij
      simp_all
    · simp [hij, h3]

lemma commInv_processPaidOrder (members : List MemberRec) (i : Nat) (st : AwardState)
    (hInv : commInv st) : commInv (processPaidOrder members i st) := by
  rw [processPaidOrder]
  split
  · rename_i h
    apply commInv_award
    · exact commInv_set_paid st i h hInv
    · have hlen : i < (st.orders.set i { st.orders[i] with status := "PAID" }).length := by
        simpa using h
      refine ⟨i, hlen, ?_, ?_, ?_⟩ <;> rw [List.getElem_set] <;> simp
  · exact hInv

lemma commInv_foldl (members : List MemberRec) (steps : List Nat) :
    ∀ st : AwardState, commInv st →
      commInv (steps.foldl (fun st i => processPaidOrder members i st) st) := by
  induction steps with
  | nil =>
    intro st h
    exact h
  | cons s rest ih =>
    intro st h
    exact ih _ (commInv_processPaidOrder members s st h)

/-- C4: `award_referral_commission` creates a commission record only when the
order's member has a phone-like `referred_by`, that referrer exists and is
`paid`, the member's PAID-order count at evaluation time is at most 1, and no
commission already exists for `(referred_phone, order_slug)`; the created
record is worth 2% of the order total.  Consequently, starting from any order
store with no commissions, any sequence of sequentially processed order
payments (mark PAID, then award) leaves at most one commission record per
referred phone. -/
theorem referralCommission_spec :
    (∀ (members : List MemberRec) (order : OrderDoc) (st : AwardState),
      (awardReferralCommission members order st).commissions ≠ st.commissions →
      ∃ m, getMemberRec members order.memberPhone = some m ∧
        looksLikePhone m.referredBy = true ∧
        (∃ r, getMemberRec members (m.referredBy.getD "") = some r ∧
          r.paymentStatus = "paid") ∧
        st.orders.countP
          (fun o => o.memberPhone == order.memberPhone && o.status == "PAID") ≤ 1 ∧
        st.commissions.any
          (fun c => c.referredPhone == order.memberPhone &&
            c.orderSlug == order.slug) = false ∧
        (awardReferralCommission members order st).commissions
          = st.commissions ++
            [{ referrerPhone := m.referredBy.getD "",
               referredPhone := order.memberPhone,
               orderSlug := order.slug,
               amount := (order.total.getD 0 : ℚ) * 2 / 100,
               status := "pending" }]) ∧
    (∀ (members : List MemberRec) (initialOrders : List OrderDoc)
        (steps : List Nat) (p : String),
      ((steps.foldl (fun st i => processPaidOrder members i st)
          ⟨initialOrders, []⟩).commissions.countP
        (fun c => c.referredPhone == p)) ≤ 1) := by
  constructor
  · intro members order st hne
    obtain ⟨m, hm, h1, h2, h3, h4, heq⟩ :=
      awardReferralCommission_create members order st hne
    exact ⟨m, hm, h1, h2, h3, h4, by rw [heq]⟩
  · intro members initialOrders steps p
    have hinit : commInv ⟨initialOrders, []⟩ := by
      constructor
      · intro q
        simp
      · intro c hc
        simp at hc
    exact (commInv_foldl members steps ⟨initialOrders, []⟩ hinit).1 p

def sampleMembers : List MemberRec :=
  [⟨"m1", some "Ada", "idle", none, "paid", none, none, some "08012345678", none⟩,
   ⟨"08012345678", some "Ref", "idle", none, "paid", none, none, none, none⟩]

def sampleOrder : OrderDoc :=
  ⟨"m1", "LAG-001", "PAID", some 3000, none, none, [], none, none, none, [], [], 0, none⟩

def sampleAwardSt : AwardState := ⟨[sampleOrder], []⟩

/-- C4 witness: a referred member's first paid order yields one commission. -/
theorem referralCommission_spec_witness :
    ∃ m, getMemberRec sampleMembers sampleOrder.memberPhone = some m ∧
      looksLikePhone m.referredBy = true ∧
      (∃ r, getMemberRec sampleMembers (m.referredBy.getD "") = some r ∧
        r.paymentStatus = "paid") ∧
      sampleAwardSt.orders.countP
        (fun o => o.memberPhone == sampleOrder.memberPhone && o.status == "PAID") ≤ 1 ∧
      sampleAwardSt.commissions.any
        (fun c => c.referredPhone == sampleOrder.memberPhone &&
          c.orderSlug == sampleOrder.slug) = false ∧
      (awardReferralCommission sampleMembers sampleOrder sampleAwardSt).commissions
        = sampleAwardSt.commissions ++
          [{ referrerPhone := m.referredBy.getD "",
             referredPhone := sampleOrder.memberPhone,
             orderSlug := sampleOrder.slug,
             amount := (sampleOrder.total.getD 0 : ℚ) * 2 / 100,
             status := "pending" }] :=
  referralCommission_spec.1 sampleMembers sampleOrder sampleAwardSt (by decide)

/-! ### Document store, cluster membership and checkout

Source: `get_member`/`get_custom_cluster`/`save_custom_cluster`/`get_cart`
(whatsapp_service.py:395-462), `join_cluster_by_id` (1130-1163), the
`awaiting_cluster_limit` handler (1264-1300), `create_order_from_cart`
(571-663) and the `cart_checkout` intent handler (2059-2137).  The Mongo
collections become the `Db` record; `update_one` by key becomes map-replace;
reply strings not examined by any claim are abbreviated.  Apostrophes in the
source's reply texts are written with the `\x27` escape. -/

structure Cluster where
  id : String
  name : String
  ownerPhone : String
  maxPeople : Nat
  members : List String
  items : List CartItem
  isActive : Bool
  deriving Repr, DecidableEq

structure Db where
  members : List MemberRec
  clusters : List Cluster
  carts : List (String × List CartItem)
  orders : List OrderDoc
  deriving Repr, DecidableEq

/-- `get_custom_cluster`: `find_one({"_id": ObjectId(cluster_id)})`. -/
def findCluster (clusters : List Cluster) (clusterId : String) : Option Cluster :=
  clusters.find? fun c => c.id == clusterId

/-- `save_custom_cluster`: `update_one({"_id": oid}, {"$set": data})`. -/
def saveCustomCluster (db : Db) (cluster : Cluster) : Db :=
  { db with clusters := db.clusters.map fun c => if c.id == cluster.id then cluster else c }

/-- `upsert_member_state` restricted to an existing member document. -/
def updateMember (db : Db) (phone : String) (f : MemberRec → MemberRec) : Db :=
  { db with members := db.members.map fun m => if m.phone == phone then f m else m }

/-- Python's `x or default` on an optional/emptyable string. -/
def pyOrStr (o : Option String) (d : String) : String :=
  match o with
  | none => d
  | some "" => d
  | some v => v

/-- Python's `int(x or d)` on an optional integer (0 is falsy). -/
def pyOrInt (o : Option Int) (d : Int) : Int :=
  match o with
  | none => d
  | some v => if v = 0 then d else v

/-! #### Cluster join (`join_cluster_by_id`) and creation -/

def clusterNotFoundMsg : String := "Sorry, I couldn\x27t find that cluster."

def notEligibleJoinMsg : String :=
  "You need an active subscription before joining a shared cluster. Reply UPGRADE to see plans."

def clusterFullMsg (name : String) : String :=
  s!"Sorry, the cluster \x27{name}\x27 is already full."

def joinSuccessMsg (name : String) : String :=
  s!"✅ You\x27ve joined the cluster \x27{name}\x27!\n\nYou now share a cart with other members. Anyone can add items, but only the creator can checkout."

def joinClusterById (db : Db) (phone : String) (clusterId : String) : String × Db :=
  match findCluster db.clusters clusterId with
  | none => (clusterNotFoundMsg, db)
  | some cluster =>
    if ((getMemberRec db.members phone).map fun m => m.paymentStatus).getD "" ≠ "paid" then
      (notEligibleJoinMsg, db)
    else if cluster.maxPeople ≤ cluster.members.length then
      (clusterFullMsg cluster.name, db)
    else
      let db1 := if phone ∈ cluster.members then db
        else saveCustomCluster db { cluster with members := cluster.members ++ [phone] }
      let db2 := updateMember db1 phone fun m =>
        { m with currentClusterId := some clusterId, state := "idle" }
      (joinSuccessMsg cluster.name, db2)

/-- `int(re.search(r"\\d+", body).group())`: first maximal digit run. -/
def firstDigitRun : List Char → Option (List Char)
  | [] => none
  | c :: rest =>
    if c.isDigit then some (c :: rest.takeWhile Char.isDigit) else firstDigitRun rest

def digitsToNat (ds : List Char) : Nat :=
  ds.foldl (fun n c => n * 10 + (c.toNat - 48)) 0

def parseFirstNat (s : String) : Option Nat :=
  (firstDigitRun s.data).map digitsToNat

/-- The `awaiting_cluster_limit` handler: parse the limit (default 5), insert
the cluster with the requesting member as sole member, set it active. -/
def createClusterFromLimitReply (db : Db) (phone : String) (bodyClean : String)
    (newClusterId : String) : String × Db :=
  let limit := (parseFirstNat bodyClean).getD 5
  let clusterName :=
    pyOrStr ((getMemberRec db.members phone).bind fun m => m.tempClusterName) "My Cluster"
  let cluster : Cluster :=
    { id := newClusterId, name := clusterName, ownerPhone := phone,
      maxPeople := limit, members := [phone], items := [], isActive := true }
  let db1 := { db with clusters := db.clusters ++ [cluster] }
  let db2 := updateMember db1 phone fun m =>
    { m with state := "idle", currentClusterId := some newClusterId,
             tempClusterName := none }
  (s!"✅ Cluster \x27{clusterName}\x27 created with a limit of {limit} people!", db2)

/-! #### Cart resolution and checkout -/

structure CartView where
  phone : String
  clusterId : Option String
  clusterName : Option String
  items : List CartItem
  deriving Repr, DecidableEq

def personalCart (db : Db) (phone : String) : CartView :=
  match db.carts.find? fun c => c.1 == phone with
  | some c => ⟨phone, none, none, c.2⟩
  | none => ⟨phone, none, none, []⟩

/-- `get_cart`: cluster-backed when the member has an active cluster that
exists and personal mode is not forced; personal otherwise. -/
def getCart (db : Db) (phone : String) (forcePersonal : Bool) : CartView :=
  match (getMemberRec db.members phone).bind fun m => m.currentClusterId, forcePersonal with
  | some cid, false =>
    match findCluster db.clusters cid with
    | some cluster => ⟨phone, some cid, some cluster.name, cluster.items⟩
    | none => personalCart db phone
  | _, _ => personalCart db phone

/-- `_slug_prefix`. -/
def slugCityCode (city : Option String) : String :=
  match city with
  | none => "GEN"
  | some c =>
    if c = "" then "GEN"
    else
      let key := strToLower c
      if strContainsSub "lagos" key then "LAG"
      else if strContainsSub "abuja" key then "ABJ"
      else if strContainsSub "ph" key || strContainsSub "harcourt" key then "PH"
      else "GEN"

/-- `f"{n:03d}"`. -/
def pad3 (n : Nat) : String :=
  if n < 10 then "00" ++ toString n
  else if n < 100 then "0" ++ toString n
  else toString n

def orderCountForCity (orders : List OrderDoc) (city : Option String) : Nat :=
  (orders.filter fun o => o.city == city).length

/-- Subtotal over cart lines; the source's string-price cleanup
(`float(str(price).replace(...))`) is abstracted to the numeric value, and
`int(it.get("qty") or 1)` defaults a falsy qty to 1. -/
def cartSubtotal (items : List CartItem) : Int :=
  (items.map fun it => it.price.getD 0 * pyOrInt it.qty 1).sum

def upsertCart (carts : List (String × List CartItem)) (phone : String)
    (items : List CartItem) : List (String × List CartItem) :=
  if carts.any fun c => c.1 == phone then
    carts.map fun c => if c.1 == phone then (phone, items) else c
  else carts ++ [(phone, items)]

inductive CreateOrderOutcome where
  | restricted
  | empty
  | created (slug : String) (total : Int)
  deriving Repr, DecidableEq

/-- The order-building tail of `create_order_from_cart` (lines 591-663):
compute totals, insert the order, clear the source cart or cluster cart. -/
def buildOrderAndClear (db : Db) (phone : String) (clusterId : Option String)
    (clusterInfo : Option Cluster) (clusterMembers : List String) :
    CreateOrderOutcome × Db :=
  let cart := getCart db phone false
  if cart.items = [] then (.empty, db)
  else
    let total := cartSubtotal cart.items + 4500
    let member := getMemberRec db.members phone
    let city := member.bind fun m => m.city
    let slug := slugCityCode city ++ "-" ++ pad3 (orderCountForCity db.orders city + 1)
    let order : OrderDoc :=
      { memberPhone := phone, slug := slug, status := "WAITING_PAYMENT",
        total := some total, city := city,
        address := member.bind fun m => m.address,
        items := cart.items,
        clusterId := clusterId,
        clusterName :=
          match clusterInfo with
          | some cl => some cl.name
          | none => cart.clusterName,
        clusterOwnerPhone := clusterInfo.map fun cl => cl.ownerPhone,
        clusterMembers := clusterMembers,
        clusterPayments := [], clusterPaidAmountKobo := 0,
        rawText := if clusterId.isSome then some "Custom Cluster Order" else none }
    let db1 := { db with orders := db.orders ++ [order] }
    let db2 :=
      match clusterId with
      | some cid =>
        match findCluster db1.clusters cid with
        | some cl => saveCustomCluster db1 { cl with items := [] }
        | none => db1
      | none => { db1 with carts := upsertCart db1.carts phone [] }
    (.created slug total, db2)

/-- `create_order_from_cart` (lines 571-663); the `"RESTRICTED"` sentinel
return becomes `CreateOrderOutcome.restricted`. -/
def createOrderFromCart (db : Db) (phone : String) : CreateOrderOutcome × Db :=
  match (getMemberRec db.members phone).bind fun m => m.currentClusterId with
  | some cid =>
    match findCluster db.clusters cid with
    | some cl =>
      if cl.ownerPhone ≠ phone then (.restricted, db)
      else buildOrderAndClear db phone (some cid) (some cl)
        (if phone ∈ cl.members then cl.members else cl.members ++ [phone])
    | none => buildOrderAndClear db phone (some cid) none []
  | none => buildOrderAndClear db phone none none []

def checkoutClusterMissingMsg : String :=
  "I couldn\x27t find this cluster anymore. Try switching to your personal cart or create a new cluster."

def checkoutRestrictedMsg (ownerName : String) : String :=
  s!"Only {ownerName} can check out this shared cluster cart."

def cartEmptyMsg : String := "Your cart is empty."

def needAddressMsg : String :=
  "Wait! We don\x27t have your delivery address yet. Please reply with your full delivery address and contact phone number."

def notPaidCheckoutMsg : String :=
  "Oops! To place an order, you need to have an active subscription. Please complete your registration/payment first or reply UPGRADE to see plans."

def orderCreateFailMsg : String :=
  "I couldn\x27t create an order from your cart. Please try again."

def ownerDisplayName (db : Db) (ownerPhone : String) : String :=
  pyOrStr ((getMemberRec db.members ownerPhone).bind fun m => m.name) "the cluster owner"

/-- Owner-name resolution of the `"RESTRICTED"` branch (lines 2089-2095). -/
def restrictedOwnerName (db : Db) (phone : String) : String :=
  match (getMemberRec db.members phone).bind fun m => m.currentClusterId with
  | none => "the cluster owner"
  | some cid =>
    match findCluster db.clusters cid with
    | none => "the cluster owner"
    | some cl => ownerDisplayName db cl.ownerPhone

def clusterPaymentsPayload (payLink : String → Option String)
    (splits : List (String × Int)) : List ClusterPayment :=
  splits.map fun s =>
    { phone := some s.1, amountKobo := some s.2,
      status := if (payLink s.1).isSome then "pending" else "error",
      reference := none, paidAt := none, payerName := none,
      payLink := payLink s.1 }

/-- The order-document `$set` of `initiate_cluster_payment_links`, applied
during a cluster checkout. -/
def applyClusterInitToOrder (payLink : String → Option String) (totalVal : Int)
    (cluster : Cluster) (o : OrderDoc) : OrderDoc :=
  { o with
    clusterPayments := clusterPaymentsPayload payLink
      (splitAmountEvenly (totalVal * 100)
        (cleanClusterMembers cluster.ownerPhone cluster.members)),
    clusterMembers := cleanClusterMembers cluster.ownerPhone cluster.members,
    clusterOwnerPhone :=
      if cluster.ownerPhone = "" then none else some cluster.ownerPhone,
    clusterName := some (pyOrStr (some cluster.name) "Cluster"),
    clusterPaidAmountKobo := 0 }

/-- `update_one({"slug": slug}, ...)`: update the first matching document. -/
def updateOrderBySlug (orders : List OrderDoc) (slug : String)
    (f : OrderDoc → OrderDoc) : List OrderDoc :=
  match orders with
  | [] => []
  | o :: rest => if o.slug == slug then f o :: rest else o :: updateOrderBySlug rest slug f

/-- The tail of the `cart_checkout` handler after the owner gate
(lines 2072-2137): empty-cart, address and payment checks, order creation,
then cluster link fan-out or a single Paystack link. -/
def checkoutWithCart (db : Db) (phone : String) (payLink : String → Option String)
    (cart : CartView) (cluster : Option Cluster) : String × Db :=
  if cart.items = [] then (cartEmptyMsg, db)
  else
    let member := getMemberRec db.members phone
    if pyOrStr (member.bind fun m => m.address) "" = "" then
      (needAddressMsg, updateMember db phone fun m => { m with state := "awaiting_address" })
    else if (member.map fun m => m.paymentStatus).getD "" ≠ "paid" then
      (notPaidCheckoutMsg, db)
    else
      match createOrderFromCart db phone with
      | (.restricted, db1) => (checkoutRestrictedMsg (restrictedOwnerName db1 phone), db1)
      | (.empty, db1) => (orderCreateFailMsg, db1)
      | (.created slug total, db1) =>
        match cluster with
        | some cl =>
          let newOrders :=
            updateOrderBySlug db1.orders slug (applyClusterInitToOrder payLink total cl)
          let db2 := { db1 with orders := newOrders }
          let db3 := updateMember db2 phone fun m => { m with state := "idle" }
          (s!"Order {slug} created for cluster {cl.name}.", db3)
        | none =>
          match payLink phone with
          | some url =>
            (s!"Order {slug} created! Click here to pay: {url}",
              updateMember db1 phone fun m => { m with state := "idle" })
          | none =>
            ("Sorry, I couldn\x27t generate a payment link for your order. Please try again in a moment.", db1)

/-- The `cart_checkout` intent handler (lines 2059-2071 gate, then the rest). -/
def cartCheckout (db : Db) (phone : String) (payLink : String → Option String) :
    String × Db :=
  let cart := getCart db phone false
  match cart.clusterId with
  | some cid =>
    match findCluster db.clusters cid with
    | none => (checkoutClusterMissingMsg, db)
    | some cluster =>
      if cluster.ownerPhone ≠ phone then
        (checkoutRestrictedMsg (ownerDisplayName db cluster.ownerPhone), db)
      else checkoutWithCart db phone payLink cart (some cluster)
  | none => checkoutWithCart db phone payLink cart none

/-- C5: when the active cart is cluster-backed and the caller is not the
cluster's owner, the checkout attempt returns the restriction explanation
naming the owner and performs no mutation: the whole store (orders, clusters,
carts, members) is returned unchanged. -/
theorem checkoutRestricted_spec (db : Db) (phone : String)
    (payLink : String → Option String) (cid : String) (cluster : Cluster)
    (hcid : ((getMemberRec db.members phone).bind fun m => m.currentClusterId) = some cid)
    (hcluster : findCluster db.clusters cid = some cluster)
    (howner : cluster.ownerPhone ≠ phone) :
    cartCheckout db phone payLink
      = (checkoutRestrictedMsg (ownerDisplayName db cluster.ownerPhone), db) := by
  have hcart : getCart db phone false
      = ⟨phone, some cid, some cluster.name, cluster.items⟩ := by
    simp [getCart, hcid, hcluster]
  simp [cartCheckout, hcart, hcluster, howner]

def checkoutSampleCluster : Cluster :=
  ⟨"c1", "Fam", "a", 5, ["a", "b"], [⟨some "S", some "Salt", some 1, some 100⟩], true⟩

def checkoutSampleDb : Db :=
  ⟨[⟨"a", some "Ada", "idle", some "Lagos", "paid", some "c1", some "12 Road", none, none⟩,
    ⟨"b", some "Bob", "idle", some "Lagos", "paid", some "c1", some "34 Road", none, none⟩],
   [checkoutSampleCluster], [], []⟩

/-- C5 witness: the non-owner member of a shared cluster cart is refused and
the store is unchanged. -/
theorem checkoutRestricted_spec_witness :
    cartCheckout checkoutSampleDb "b" (fun _ => none)
      = (checkoutRestrictedMsg (ownerDisplayName checkoutSampleDb "a"),
         checkoutSampleDb) :=
  checkoutRestricted_spec checkoutSampleDb "b" (fun _ => none) "c1"
    checkoutSampleCluster (by decide) (by decide) (by decide)

lemma getMemberRec_updateMember (db : Db) (phone : String) (f : MemberRec → MemberRec)
    (hf : ∀ m, (f m).phone = m.phone) :
    getMemberRec (updateMember db phone f).members phone
      = (getMemberRec db.members phone).map f := by
  show ((db.members.map fun m => if m.phone == phone then f m else m).find?
      fun m => m.phone == phone) = _
  rw [List.find?_map]
  have hpred : ((fun m : MemberRec => m.phone == phone) ∘
      fun m => if m.phone == phone then f m else m)
        = fun m => m.phone == phone := by
    funext m
    by_cases h : m.phone = phone
    · simp [h, hf]
    · simp [h]
  rw [hpred, getMemberRec]
  cases hfind : db.members.find? fun m => m.phone == phone with
  | none => rfl
  | some m0 =>
    have hm0 : m0.phone = phone := by simpa using List.find?_some hfind
    simp [hm0]

lemma joinClusterById_clusters (db : Db) (phone clusterId : String) :
    (joinClusterById db phone clusterId).2.clusters = db.clusters ∨
    ∃ cluster, findCluster db.clusters clusterId = some cluster ∧
      cluster.members.length < cluster.maxPeople ∧
      (joinClusterById db phone clusterId).2.clusters
        = db.clusters.map fun c => if c.id == cluster.id then
            { cluster with members := cluster.members ++ [phone] } else c := by
  rw [joinClusterById]
  split
  · left
    rfl
  · rename_i cluster hfind
    split
    · left
      rfl
    · split
      · left
        rfl
      · rename_i hnotfull
        by_cases hmem : phone ∈ cluster.members
        · left
          simp [hmem, updateMember]
        · right
          exact ⟨cluster, hfind, by omega,
            by simp [hmem, updateMember, saveCustomCluster]⟩

/-- C6 (amended): a join attempt against an existing cluster fails with the
not-eligible message whenever the joining member's `payment_status` is not
`paid` (this check runs **before** the capacity check); when the member is
paid, it fails with the cluster-full message and no change whenever
`len(members) ≥ max_people`; otherwise it succeeds, appending the phone
(when not already present) and setting the cluster as the member's active
cluster; every cluster produced by join, and every cluster created from a
limit reply whose parsed limit is at least 1 (including the default 5),
satisfies `len(members) ≤ max_people`. -/
theorem clusterJoin_spec :
    (∀ (db : Db) (phone clusterId : String) (cluster : Cluster),
      findCluster db.clusters clusterId = some cluster →
      ((getMemberRec db.members phone).map fun m => m.paymentStatus).getD "" ≠ "paid" →
      joinClusterById db phone clusterId = (notEligibleJoinMsg, db)) ∧
    (∀ (db : Db) (phone clusterId : String) (cluster : Cluster),
      findCluster db.clusters clusterId = some cluster →
      ((getMemberRec db.members phone).map fun m => m.paymentStatus).getD "" = "paid" →
      cluster.maxPeople ≤ cluster.members.length →
      joinClusterById db phone clusterId = (clusterFullMsg cluster.name, db)) ∧
    (∀ (db : Db) (phone clusterId : String) (cluster : Cluster),
      findCluster db.clusters clusterId = some cluster →
      ((getMemberRec db.members phone).map fun m => m.paymentStatus).getD "" = "paid" →
      cluster.members.length < cluster.maxPeople →
      (joinClusterById db phone clusterId).1 = joinSuccessMsg cluster.name ∧
      (joinClusterById db phone clusterId).2.clusters
        = (if phone ∈ cluster.members then db.clusters
           else db.clusters.map fun c => if c.id == cluster.id then
             { cluster with members := cluster.members ++ [phone] } else c) ∧
      getMemberRec (joinClusterById db phone clusterId).2.members phone
        = (getMemberRec db.members phone).map fun m =>
            { m with currentClusterId := some clusterId, state := "idle" }) ∧
    (∀ (db : Db) (phone clusterId : String),
      ∀ c' ∈ (joinClusterById db phone clusterId).2.clusters,
        c' ∈ db.clusters ∨ c'.members.length ≤ c'.maxPeople) ∧
    (∀ (db : Db) (phone bodyClean newClusterId : String),
      1 ≤ (parseFirstNat bodyClean).getD 5 →
      ∀ c' ∈ (createClusterFromLimitReply db phone bodyClean newClusterId).2.clusters,
        c' ∈ db.clusters ∨ c'.members.length ≤ c'.maxPeople) := by
  refine ⟨?_, ?_, ?_, ?_, ?_⟩
  · intro db phone clusterId cluster hfind hne
    simp [joinClusterById, hfind, hne]
  · intro db phone clusterId cluster hfind hpaid hfull
    simp [joinClusterById, hfind, hpaid, hfull]
  · intro db phone clusterId cluster hfind hpaid hlt
    have hnotfull : ¬ cluster.maxPeople ≤ cluster.members.length := not_le.mpr hlt
    have hjoin : joinClusterById db phone clusterId
        = (joinSuccessMsg cluster.name,
           updateMember
             (if phone ∈ cluster.members then db
              else saveCustomCluster db { cluster with members := cluster.members ++ [phone] })
             phone fun m => { m with currentClusterId := some clusterId, state := "idle" }) := by
      simp [joinClusterById, hfind, hpaid, hnotfull]
    rw [hjoin]
    refine ⟨rfl, ?_, ?_⟩
    · by_cases hmem : phone ∈ cluster.members <;>
        simp [hmem, updateMember, saveCustomCluster]
    · rw [getMemberRec_updateMember _ _
        (fun m => { m with currentClusterId := some clusterId, state := "idle" })
        (fun m => rfl)]
      by_cases hmem : phone ∈ cluster.members <;> simp [hmem, saveCustomCluster]
  · intro db phone clusterId c' hc'
    rcases joinClusterById_clusters db phone clusterId with h | ⟨cluster, _, hlt, h⟩
    · left
      rw [← h]
      exact hc'
    · rw [h] at hc'
      obtain ⟨c0, hc0, hval⟩ := List.mem_map.mp hc'
      by_cases hid : c0.id == cluster.id
      · right
        rw [← hval, if_pos hid]
        simp
        omega
      · left
        rw [← hval, if_neg hid]
        exact hc0
  · intro db phone bodyClean newClusterId hlim c' hc'
    have hclusters : (createClusterFromLimitReply db phone bodyClean newClusterId).2.clusters
        = db.clusters ++
          [{ id := newClusterId,
             name := pyOrStr ((getMemberRec db.members phone).bind fun m => m.tempClusterName)
               "My Cluster",
             ownerPhone := phone, maxPeople := (parseFirstNat bodyClean).getD 5,
             members := [phone], items := [], isActive := true }] := by
      simp [createClusterFromLimitReply, updateMember]
    rw [hclusters] at hc'
    rcases List.mem_append.mp hc' with h | h
    · left
      exact h
    · right
      have hval := List.mem_singleton.mp h
      rw [hval]
      simpa using hlim

def joinSampleCluster : Cluster := ⟨"k1", "Family", "a", 3, ["a", "b", "x"], [], true⟩

def joinSampleDb : Db :=
  ⟨[⟨"c", some "Cee", "idle", none, "paid", none, none, none, none⟩],
   [joinSampleCluster], [], []⟩

/-- C6 witness: a paid 4th member is rejected from a full 3-person cluster
with the cluster-full message and no state change. -/
theorem clusterJoin_spec_witness :
    joinClusterById joinSampleDb "c" "k1" = (clusterFullMsg "Family", joinSampleDb) :=
  clusterJoin_spec.2.1 joinSampleDb "c" "k1" joinSampleCluster
    (by decide) (by decide) (by decide)

def cexJoinDb : Db :=
  ⟨[⟨"b", some "Bob", "idle", none, "unpaid", none, none, none, none⟩],
   [⟨"k2", "Family", "a", 1, ["a"], [], true⟩], [], []⟩

def cexCreateDb : Db :=
  ⟨[⟨"a", some "Ada", "awaiting_cluster_limit", none, "paid", none, none, none, none⟩],
   [], [], []⟩

/-- C6 counterexample: (i) an unpaid member joining a **full** cluster gets
the not-eligible message, not the cluster-full message the claim requires
whenever `len(members) ≥ max_people`; (ii) a limit reply of "0" creates a
cluster with one member and `max_people = 0`, violating the claimed
`len(members) ≤ max_people` invariant on clusters reachable through create. -/
theorem clusterJoin_counterexample :
    (joinClusterById cexJoinDb "b" "k2").1 = notEligibleJoinMsg ∧
    notEligibleJoinMsg ≠ clusterFullMsg "Family" ∧
    ((findCluster (createClusterFromLimitReply cexCreateDb "a" "0" "k9").2.clusters "k9").map
      fun c => decide (c.members.length ≤ c.maxPeople)) = some false := by
  refine ⟨rfl, by decide, rfl⟩

/-! ### Idle-state intent classification fallback

Source: whatsapp_service.py:1801-1829.  The `await asyncio.wait_for(
classify_intent(...), timeout=5.0)` call has four outcomes: an intent string,
`None`, `asyncio.TimeoutError`, or another exception.  The real-time 5-second
bound itself is not representable; it is modelled as the `timeout` outcome.
The error branch returns without any `upsert_member_state` call, so its
`stateWritten` component is `none`. -/

inductive AIIntentOutcome where
  | ok (intent : Option String)
  | timeout
  | failure
  deriving Repr, DecidableEq

inductive IdleDispatch where
  | proceed (intentGuess : String) (aiUsed : Bool)
  | reply (text : String) (nextState : String) (stateWritten : Option String)
  deriving Repr, DecidableEq

def aiErrorMsg : String :=
  "I\x27m having trouble understanding your message right now. Please try rephrasing or try again in a moment."

def classifyIntentStep (outcome : AIIntentOutcome) : IdleDispatch :=
  match outcome with
  | .ok (some intent) => .proceed intent true
  | .ok none => .proceed "catalog_search" true
  | .timeout => .proceed "catalog_search" false
  | .failure => .reply aiErrorMsg "idle" none

/-- C9: a timed-out or empty classification defaults the intent to
`catalog_search` and dispatch proceeds; a hard classification error returns
the explicit try-again reply with next state `idle` and no state write. -/
theorem idleClassification_spec :
    (∀ o : AIIntentOutcome, o = .timeout ∨ o = .ok none →
      ∃ b, classifyIntentStep o = .proceed "catalog_search" b) ∧
    classifyIntentStep .failure = .reply aiErrorMsg "idle" none := by
  constructor
  · rintro o (rfl | rfl)
    · exact ⟨false, rfl⟩
    · exact ⟨true, rfl⟩
  · rfl

/-- C9 witness: the timeout outcome. -/
theorem idleClassification_spec_witness :
    ∃ b, classifyIntentStep .timeout = .proceed "catalog_search" b :=
  idleClassification_spec.1 .timeout (Or.inl rfl)

/-! ### Webhook endpoint response discipline

Source: routers/paystack.py:21-283.  Signature checks happen before the
`try`; every exception inside the `try` (including `json.loads` on an
unparseable body, unknown event types, unknown slugs and processing errors)
is caught, logged and swallowed, and the function falls through to the single
`return JSONResponse({"status": "success"}, 200)`.  HMAC-SHA512 is held
abstract as an uninterpreted function argument; the body processing is held
abstract as an `Except` outcome. -/

inductive WebhookResponse where
  | ok (status : Nat) (body : String)
  | httpError (status : Nat) (detail : String)
  deriving Repr, DecidableEq

/-- The `try`/`except` body: both outcomes fall through to the same
`return JSONResponse({"status": "success"}, 200)`. -/
def webhookProcessingResponse (processing : Except String Unit) : WebhookResponse :=
  match processing with
  | .ok _ => .ok 200 "success"
  | .error _ => .ok 200 "success"

def paystackWebhook (hmacSha512 : String → String → String) (secretKey : String)
    (signatureHeader : Option String) (rawBody : String)
    (processing : Except String Unit) : WebhookResponse :=
  match signatureHeader with
  | none => .httpError 400 "Missing Paystack signature"
  | some sig =>
    if hmacSha512 secretKey rawBody ≠ sig then .httpError 400 "Invalid signature"
    else webhookProcessingResponse processing

/-- C10: with a matching signature the endpoint answers 200 `success`
whatever the processing outcome (parse failures, unknown events or slugs,
raised exceptions), and a non-200 answer happens only when the signature
header is missing or does not match the HMAC of the raw body. -/
theorem webhook_always_success (hmacSha512 : String → String → String)
    (secretKey : String) (signatureHeader : Option String) (rawBody : String)
    (processing : Except String Unit) :
    (∀ sig, signatureHeader = some sig → hmacSha512 secretKey rawBody = sig →
      paystackWebhook hmacSha512 secretKey signatureHeader rawBody processing
        = .ok 200 "success") ∧
    (paystackWebhook hmacSha512 secretKey signatureHeader rawBody processing
        ≠ .ok 200 "success" →
      signatureHeader = none ∨
        ∃ sig, signatureHeader = some sig ∧ hmacSha512 secretKey rawBody ≠ sig) := by
  constructor
  · intro sig hsig hmatch
    subst hsig
    simp only [paystackWebhook]
    rw [if_neg (not_not.mpr hmatch)]
    cases processing <;> rfl
  · intro hne
    cases hsig : signatureHeader with
    | none => exact Or.inl rfl
    | some sig =>
      right
      refine ⟨sig, rfl, ?_⟩
      intro hmatch
      apply hne
      subst hsig
      simp only [paystackWebhook]
      rw [if_neg (not_not.mpr hmatch)]
      cases processing <;> rfl

/-- C10 witness: a matching signature with a processing exception still
answers 200 `success`. -/
theorem webhook_always_success_witness :
    paystackWebhook (fun _ _ => "s") "key" (some "s") "\x7bnot json"
      (Except.error "boom") = .ok 200 "success" :=
  (webhook_always_success (fun _ _ => "s") "key" (some "s") "\x7bnot json"
    (Except.error "boom")).1 "s" rfl rfl

end PnpLite
